import Mathlib

/-!
Verification of the deep-dive session supervision engine against its
natural-language specification.

Source embeddings:
* `MockBus`      — the subscribe / `_emit` / unsubscribe semantics of
  `src/tests/browser/fixtures/mock-session.ts` (and the identical
  `MockSession._emit` in `src/pi-extensions/deep-dive/test.mjs`).
* `ModelSort`    — `src/src/model-sort.ts` (`modelSortKey`,
  `sortModelsNewestFirst`).
* `Auth`         — `src/src/cli/auth-service.ts` (`OAUTH_PROVIDERS`,
  `OAUTH_CANONICAL_BY_INPUT`, `AuthService.oauthLogin`).
* `Supervisor`   — the SessionSupervisor state machine, restart policy and
  one-shot history-replay flag; the implementing code (`src/engine.js`,
  `pi-extensions/deep-dive/index.ts`) is not part of the source tree, so
  these are modelled from the specification.
* `Cost`         — the CostTracker; `cost-tracker.js` is not part of the
  source tree (only its test file is), so it is modelled from the
  specification and the documented behaviour.
-/

namespace MockBus

/-- A subscriber callback's observable behaviour during one delivery:
do nothing, call the unsubscribe handle of the subscriber whose identity is
`target`, or throw an error.  Subscribers are identified by `sid`, which
models JavaScript function identity (used by `indexOf` in the unsubscribe
closure of `createMockSession().subscribe`). -/
inductive CbAct where
  | pure : CbAct
  | unsub (target : Nat) : CbAct
  | throwErr (msg : String) : CbAct
deriving DecidableEq

/-- One registered subscriber of the mock session's event bus. -/
structure Subscriber where
  sid : Nat
  act : CbAct
deriving DecidableEq

/-- The unsubscribe closure returned by `subscribe`:
`const idx = subscribers.indexOf(fn); if (idx >= 0) subscribers.splice(idx, 1)` —
remove the first occurrence of the subscriber with the given identity. -/
def removeFirst : List Subscriber → Nat → List Subscriber
  | [], _ => []
  | s :: rest, t => if s.sid = t then rest else s :: removeFirst rest t

/-- The delivery loop of `_emit`:
`for (const fn of subscribers) fn(event);`.
JavaScript's array iterator reads the *live* array at an increasing index
`i`, stopping as soon as `i` is out of bounds; a callback may mutate the
array (via an unsubscribe handle) or throw, and a thrown error propagates
out of `_emit`, aborting the loop.  `fuel` bounds the recursion; since `i`
strictly increases and the array never grows, `subs.length` steps suffice.
Returns (identities that received the event, final subscriber array,
propagated error if any). -/
def emitAux : Nat → List Subscriber → Nat → List Nat →
    List Nat × List Subscriber × Option String
  | 0, subs, _, delivered => (delivered, subs, none)
  | fuel + 1, subs, i, delivered =>
    match subs[i]? with
    | none => (delivered, subs, none)
    | some s =>
      let delivered := delivered ++ [s.sid]
      match s.act with
      | .throwErr m => (delivered, subs, some m)
      | .pure => emitAux fuel subs (i + 1) delivered
      | .unsub t => emitAux fuel (removeFirst subs t) (i + 1) delivered

/-- One publish on the mock bus (`_emit`). -/
def emit (subs : List Subscriber) : List Nat × List Subscriber × Option String :=
  emitAux subs.length subs 0 []

end MockBus

namespace ModelSort

/-- The maximal digit runs of a string, as numbers, in order of occurrence:
the embedding of `id.match(/\d+/g)?.map(Number) ?? []` in
`src/src/model-sort.ts`. -/
def digitRunsAux : List Char → Option Nat → List Nat
  | [], none => []
  | [], some n => [n]
  | c :: cs, acc =>
    if c.isDigit then
      digitRunsAux cs (some (acc.getD 0 * 10 + (c.toNat - 48)))
    else
      match acc with
      | none => digitRunsAux cs none
      | some n => n :: digitRunsAux cs none

def digitRuns (s : String) : List Nat :=
  digitRunsAux s.data none

/-- `modelSortKey` from `src/src/model-sort.ts`: pop a trailing number
exceeding 20200000 as the date (`none` models the JavaScript `Infinity`
used for undated ids), then take the first three remaining numbers with
missing components defaulting to 0. -/
def modelSortKey (id : String) : Nat × Nat × Nat × Option Nat :=
  let nums := digitRuns id
  let popped :=
    match nums.getLast? with
    | some l => if l > 20200000 then (nums.dropLast, some l) else (nums, none)
    | none => (nums, (none : Option Nat))
  (popped.1.getD 0 0, popped.1.getD 1 0, popped.1.getD 2 0, popped.2)

/-- A model record: `id`, `provider`, and an opaque payload standing for
any extra object properties carried by the generic `T` of
`sortModelsNewestFirst<T extends { id: string; provider: string }>`. -/
structure Model (α : Type) where
  id : String
  provider : String
  payload : α
deriving DecidableEq

/-- Three-way comparison of a linear order, mirroring a JavaScript
comparator's sign. -/
def lcmp {α : Type} [LinearOrder α] (x y : α) : Ordering :=
  if x < y then .lt else if y < x then .gt else .eq

/-- The JavaScript `Infinity` date sentinel as the top of `WithTop ℕ`. -/
def toTop : Option Nat → WithTop Nat
  | none => ⊤
  | some n => (n : WithTop Nat)

/-- The version-key comparison loop of the comparator in
`sortModelsNewestFirst`: `for (let i = 0; i < 4; i++) if (ka[i] !== kb[i])
return kb[i] - ka[i];` — descending on each component, components compared
in order, `Infinity` (undated) greatest. -/
def keyCmpDesc (ka kb : Nat × Nat × Nat × Option Nat) : Ordering :=
  (lcmp kb.1 ka.1).then <| (lcmp kb.2.1 ka.2.1).then <|
    (lcmp kb.2.2.1 ka.2.2.1).then (lcmp (toTop kb.2.2.2) (toTop ka.2.2.2))

/-- The full comparator of `sortModelsNewestFirst`: group by provider
first (the `localeCompare` on provider ids is modelled as lexicographic
string comparison), then by version key descending. -/
def modelCmp {α : Type} (a b : Model α) : Ordering :=
  (lcmp a.provider b.provider).then
    (keyCmpDesc (modelSortKey a.id) (modelSortKey b.id))

/-- `a` may be placed before `b`: comparator result is not positive. -/
def modelLE {α : Type} (a b : Model α) : Bool :=
  match modelCmp a b with
  | .gt => false
  | _ => true

/-- `sortModelsNewestFirst` from `src/src/model-sort.ts`:
`[...models].sort(cmp)` — a stable sort of a copy of the input by the
comparator (ECMAScript `Array.prototype.sort` is stable). -/
def sortModelsNewestFirst {α : Type} (l : List (Model α)) : List (Model α) :=
  l.mergeSort modelLE

/-- The claim-side version key as a lexicographic tuple: major, minor,
patch, then the date with the undated case as the top element. -/
def keyLex (k : Nat × Nat × Nat × Option Nat) :
    Lex (Nat × Lex (Nat × Lex (Nat × WithTop Nat))) :=
  toLex (k.1, toLex (k.2.1, toLex (k.2.2.1, toTop k.2.2.2)))

/-- The claim-side rank of a model: provider ascending (string
comparison), then version key descending (order dual of the lexicographic
key order). -/
def rank {α : Type} (m : Model α) :
    Lex (String × (Lex (Nat × Lex (Nat × Lex (Nat × WithTop Nat))))ᵒᵈ) :=
  toLex (m.provider, OrderDual.toDual (keyLex (modelSortKey m.id)))

/-- The ordering the claim describes: models are ordered by provider
ascending, and within a provider by descending version key (so an undated
alias, whose date component is the top element, comes first). -/
def specLE {α : Type} (a b : Model α) : Prop :=
  a.provider < b.provider ∨
    (a.provider = b.provider ∧
      keyLex (modelSortKey b.id) ≤ keyLex (modelSortKey a.id))

/-- Two models the comparator cannot distinguish: equal provider and
equal version key. -/
def specTie {α : Type} (a b : Model α) : Prop :=
  a.provider = b.provider ∧ modelSortKey a.id = modelSortKey b.id

end ModelSort

namespace Auth

/-- One entry of the `OAUTH_PROVIDERS` table in
`src/src/cli/auth-service.ts`. -/
structure OAuthProvider where
  pid : String
  canonicalId : String
  pname : String
  subscription : String

def OAUTH_PROVIDERS : List OAuthProvider :=
  [ ⟨"anthropic", "anthropic", "Anthropic Claude",
      "Claude Pro/Max or Claude Team"⟩,
    ⟨"github-copilot", "github-copilot", "GitHub Copilot",
      "GitHub Copilot Individual, Business, or Enterprise"⟩,
    ⟨"google", "google-gemini-cli", "Google Gemini CLI",
      "Google Gemini CLI access (via gcloud)"⟩,
    ⟨"antigravity", "google-antigravity", "Google Cloud Antigravity",
      "Google Cloud Project with Antigravity API enabled"⟩,
    ⟨"openai-codex", "openai-codex", "OpenAI Codex",
      "ChatGPT Plus/Pro or ChatGPT Team (OAuth flow)"⟩ ]

/-- A JavaScript record assignment `m[k] = v`: overwrite an existing key in
place, otherwise append the new key. -/
def storeKey (m : List (String × String)) (k v : String) :
    List (String × String) :=
  if m.any (fun kv => kv.1 = k) then
    m.map (fun kv => if kv.1 = k then (k, v) else kv)
  else
    m ++ [(k, v)]

/-- `OAUTH_CANONICAL_BY_INPUT`: for each provider, both its `id` and its
`canonicalId` map to the `canonicalId`. -/
def OAUTH_CANONICAL_BY_INPUT : List (String × String) :=
  OAUTH_PROVIDERS.foldl
    (fun m p => storeKey (storeKey m p.pid p.canonicalId) p.canonicalId p.canonicalId)
    []

/-- The string-keyed own properties of `Object.prototype` (including the
Annex B legacy accessors, present in all mainstream engines): a property
read on a plain object literal that misses every own key continues along
the prototype chain and finds these. -/
def OBJECT_PROTOTYPE_KEYS : List String :=
  [ "constructor", "hasOwnProperty", "isPrototypeOf", "propertyIsEnumerable",
    "toLocaleString", "toString", "valueOf", "__proto__",
    "__defineGetter__", "__defineSetter__", "__lookupGetter__",
    "__lookupSetter__" ]

/-- The value of the JavaScript property read
`OAUTH_CANONICAL_BY_INPUT[input]`: one of the record's own string values,
a non-string value inherited from `Object.prototype` (a built-in
function, or for `__proto__` the prototype object itself — truthy either
way), or `undefined`. -/
inductive LookupResult where
  | strVal (s : String) : LookupResult
  | protoFn (name : String) : LookupResult
  | jsUndefined : LookupResult
deriving DecidableEq

/-- `resolveOAuthProviderId`: the property read
`OAUTH_CANONICAL_BY_INPUT[input]` on a plain object literal — an own key
shadows the prototype; a miss on every own key falls through to
`Object.prototype` before yielding `undefined`. -/
def resolveOAuthProviderId (input : String) : LookupResult :=
  match OAUTH_CANONICAL_BY_INPUT.find? (fun kv => kv.1 = input) with
  | some kv => .strVal kv.2
  | none =>
    if input ∈ OBJECT_PROTOTYPE_KEYS then .protoFn input else .jsUndefined

/-- JavaScript truthiness of the looked-up value, as tested by
`if (!canonicalProvider)`: `undefined` and the empty string are falsy;
every member inherited from `Object.prototype` is a function or an
object, hence truthy. -/
def isTruthy : LookupResult → Bool
  | .jsUndefined => false
  | .strVal s => s != ""
  | .protoFn _ => true

/-- Observable outcome of `AuthService.oauthLogin`: the values passed to
`storage.login` (in their provider-argument position) and whether it threw
a `ValidationError` instead.  The storage's own OAuth flow (which may
itself fail, turning into an `AuthenticationError` after `storage.login`
was already invoked) is abstracted away. -/
structure OauthLoginRun where
  loginCalls : List LookupResult
  threwValidationError : Bool
deriving DecidableEq

/-- `AuthService.oauthLogin`: resolve the provider; if the looked-up value
is falsy, throw a `ValidationError` without touching storage; otherwise
call `storage.login(canonicalProvider, callbacks)` exactly once with that
value — which, for an `Object.prototype` property name, is the inherited
non-string value. -/
def oauthLogin (provider : String) : OauthLoginRun :=
  let canonicalProvider := resolveOAuthProviderId provider
  if isTruthy canonicalProvider then ⟨[canonicalProvider], false⟩
  else ⟨[], true⟩

/-- The supported OAuth input set named by the claim. -/
def SUPPORTED_OAUTH_INPUTS : List String :=
  [ "anthropic", "github-copilot", "google", "google-gemini-cli",
    "antigravity", "google-antigravity", "openai-codex" ]

end Auth

namespace Supervisor

/-- Modelled from the spec: the SessionSupervisor state machine of §4.1 is
implemented in `src/engine.js` (and `pi-extensions/deep-dive/index.ts`),
which are not part of the source tree — only their test fixtures are.
Session lifecycle states. -/
inductive Phase where
  | starting | running | unresponsive | stopped | failed
deriving DecidableEq

/-- Modelled from the spec: the events the Supervisor publishes (§6);
the implementing `src/engine.js` is missing from the source tree.
`restartedEv` carries the attempt ordinal and the previous error;
`failedEv` carries the triggering error and the restart attempts made. -/
inductive SupEvent where
  | startedEv : SupEvent
  | restartedEv (attempt : Nat) (prevError : String) : SupEvent
  | failedEv (error : String) (attemptsMade : Nat) : SupEvent
  | stoppedEv : SupEvent
  | historyReplayEv : SupEvent
deriving DecidableEq

/-- Modelled from the spec: the supervised session owned by the missing
`src/engine.js` Supervisor — lifecycle phase, restart bookkeeping, the
resume / one-shot history-replay flags checked by the tests in
`pi-extensions/deep-dive/test.mjs`, and the events published so far. -/
structure SupState where
  phase : Phase
  restartCount : Nat
  isResumedSession : Bool
  chatHistoryRequested : Bool
  events : List SupEvent
  maxAttempts : Nat
deriving DecidableEq

/-- Modelled from the spec: commands and signals entering the missing
Supervisor — an unexpected worker crash carrying its error, a successful
worker (re-)creation, an explicit stop, a prompt, and one execution of the
resume bookkeeping path that may deliver the history replay. -/
inductive SupCmd where
  | crash (err : String) : SupCmd
  | workerReady : SupCmd
  | stopCmd : SupCmd
  | promptCmd (text : String) : SupCmd
  | resumeBookkeeping : SupCmd
deriving DecidableEq

/-- Modelled from the spec: synchronous command results (§6, §7) of the
missing Supervisor; commands outside a live state fail with
`SessionEndedError`. -/
inductive CmdResult where
  | ok | sessionEndedError
deriving DecidableEq

/-- Modelled from the spec: RestartPolicy §4.2 of the missing
`src/engine.js` — `retry while attempt <= maxAttempts`, give up after. -/
def restartRetry (maxAttempts attempt : Nat) : Bool :=
  attempt ≤ maxAttempts

def publish (s : SupState) (e : SupEvent) : SupState :=
  { s with events := s.events ++ [e] }

/-- Modelled from the spec: one transition of the missing Supervisor
(§4.1).  On a crash from a live state it captures the attempt, increments
`restartCount`, and consults the policy: on retry it publishes a
`restarted` event (attempt ordinal, previous error) before re-creation and
waits in `starting`; on give-up it publishes a terminal `failed` event and
enters `failed`.  `stop` is idempotent, publishes one `stopped` event and
resets the restart and resume flags; prompts outside
`running`/`unresponsive` fail with `SessionEndedError`; the resume
bookkeeping path emits `historyReplay` only for a resumed session and only
once, gated by the one-shot `chatHistoryRequested` flag. -/
def step (s : SupState) : SupCmd → SupState × CmdResult
  | .crash err =>
    match s.phase with
    | .starting | .running | .unresponsive =>
      let attempt := s.restartCount + 1
      if restartRetry s.maxAttempts attempt then
        ({ publish s (.restartedEv attempt err) with
            phase := .starting, restartCount := attempt }, .ok)
      else
        ({ publish s (.failedEv err s.restartCount) with
            phase := .failed, restartCount := attempt }, .ok)
    | .stopped | .failed => (s, .ok)
  | .workerReady =>
    match s.phase with
    | .starting => ({ s with phase := .running }, .ok)
    | _ => (s, .ok)
  | .stopCmd =>
    match s.phase with
    | .stopped | .failed => (s, .ok)
    | _ =>
      ({ publish s .stoppedEv with
          phase := .stopped, restartCount := 0,
          isResumedSession := false, chatHistoryRequested := false }, .ok)
  | .promptCmd _ =>
    match s.phase with
    | .running | .unresponsive => (s, .ok)
    | _ => (s, .sessionEndedError)
  | .resumeBookkeeping =>
    if s.isResumedSession ∧ ¬ s.chatHistoryRequested then
      ({ publish s .historyReplayEv with chatHistoryRequested := true }, .ok)
    else
      (s, .ok)

/-- Modelled from the spec: a session right after a successful `start`
(fresh, `resumed = false`) or `resume` (`resumed = true`): the worker is
up, `started` has been published, restart bookkeeping is fresh. -/
def initSession (maxA : Nat) (resumed : Bool) : SupState :=
  { phase := .running, restartCount := 0, isResumedSession := resumed,
    chatHistoryRequested := false, events := [.startedEv], maxAttempts := maxA }

/-- Run a command sequence, discarding the synchronous results. -/
def run (s : SupState) (cmds : List SupCmd) : SupState :=
  cmds.foldl (fun st c => (step st c).1) s

/-- `N` induced crashes, each followed by a worker re-creation attempt. -/
def crashSeq (n : Nat) (err : String) : List SupCmd :=
  (List.replicate n [SupCmd.crash err, SupCmd.workerReady]).flatten

/-- The attempt ordinals of the `restarted` events, in publish order. -/
def restartedAttempts (evs : List SupEvent) : List Nat :=
  evs.filterMap (fun e =>
    match e with
    | .restartedEv a _ => some a
    | _ => none)

/-- How many `historyReplay` events a list contains. -/
def replayCount (evs : List SupEvent) : Nat :=
  evs.countP (fun e =>
    match e with
    | .historyReplayEv => true
    | _ => false)

/-- Replay events already published plus the at-most-one still allowed by
the one-shot guard; this quantity never increases along a run. -/
def replayPotential (s : SupState) : Nat :=
  replayCount s.events +
    (if s.isResumedSession ∧ ¬ s.chatHistoryRequested then 1 else 0)

end Supervisor

namespace Cost

/-- Modelled from the spec: cumulative token counters of the CostTracker;
`cost-tracker.js` is absent from the source tree (only its test file
`src/unnamed/part_002` is present). -/
structure TokenUsage where
  input : Nat
  output : Nat
  cacheRead : Nat
  cacheWrite : Nat
deriving DecidableEq

/-- Modelled from the spec: a usage event passed to `recordUsage`; every
field may be absent and defaults to 0 (cost is `event.cost?.total`).
Costs are modelled as exact rationals. -/
structure UsageEvent where
  input : Option Nat := none
  output : Option Nat := none
  cacheRead : Option Nat := none
  cacheWrite : Option Nat := none
  costTotal : Option ℚ := none

/-- Modelled from the spec: one recorded entry of the missing
CostTracker. -/
structure CostEntry where
  usage : TokenUsage
  cost : ℚ

/-- Modelled from the spec: the missing CostTracker's state — the list of
recorded entries, in recording order. -/
structure CostTracker where
  entries : List CostEntry

def mkCostTracker : CostTracker := ⟨[]⟩

/-- The entry `recordUsage` builds from an event: absent fields default
to 0. -/
def entryOf (e : UsageEvent) : CostEntry :=
  ⟨⟨e.input.getD 0, e.output.getD 0, e.cacheRead.getD 0, e.cacheWrite.getD 0⟩,
    e.costTotal.getD 0⟩

/-- Modelled from the spec: `recordUsage` appends the defaulted entry and
returns it. -/
def recordUsage (t : CostTracker) (e : UsageEvent) : CostTracker × CostEntry :=
  ({ entries := t.entries ++ [entryOf e] }, entryOf e)

structure Totals where
  usage : TokenUsage
  cost : ℚ
  requestCount : Nat
deriving DecidableEq

/-- Modelled from the spec: `getTotals` folds the cumulative counters over
the recorded entries; it reads the tracker without modifying it. -/
def getTotals (t : CostTracker) : Totals :=
  t.entries.foldl
    (fun acc en =>
      ⟨⟨acc.usage.input + en.usage.input, acc.usage.output + en.usage.output,
        acc.usage.cacheRead + en.usage.cacheRead,
        acc.usage.cacheWrite + en.usage.cacheWrite⟩,
        acc.cost + en.cost, acc.requestCount + 1⟩)
    ⟨⟨0, 0, 0, 0⟩, 0, 0⟩

/-- Record a whole sequence of usage events in order. -/
def recordAll (t : CostTracker) (es : List UsageEvent) : CostTracker :=
  es.foldl (fun acc e => (recordUsage acc e).1) t

end Cost

namespace Cost

theorem totals_foldl (l : List CostEntry) :
    ∀ acc : Totals,
      l.foldl
        (fun acc en =>
          ⟨⟨acc.usage.input + en.usage.input, acc.usage.output + en.usage.output,
            acc.usage.cacheRead + en.usage.cacheRead,
            acc.usage.cacheWrite + en.usage.cacheWrite⟩,
            acc.cost + en.cost, acc.requestCount + 1⟩)
        acc =
      ⟨⟨acc.usage.input + (l.map (fun en => en.usage.input)).sum,
        acc.usage.output + (l.map (fun en => en.usage.output)).sum,
        acc.usage.cacheRead + (l.map (fun en => en.usage.cacheRead)).sum,
        acc.usage.cacheWrite + (l.map (fun en => en.usage.cacheWrite)).sum⟩,
        acc.cost + (l.map (fun en => en.cost)).sum,
        acc.requestCount + l.length⟩ := by
  induction l with
  | nil => intro acc; simp
  | cons e l ih =>
    intro acc
    simp only [List.foldl_cons, List.map_cons, List.sum_cons, List.length_cons]
    rw [ih]
    simp only [Totals.mk.injEq, TokenUsage.mk.injEq]
    refine ⟨⟨by omega, by omega, by omega, by omega⟩, by ring, by omega⟩

theorem getTotals_entries (t : CostTracker) :
    getTotals t =
      ⟨⟨(t.entries.map (fun en => en.usage.input)).sum,
        (t.entries.map (fun en => en.usage.output)).sum,
        (t.entries.map (fun en => en.usage.cacheRead)).sum,
        (t.entries.map (fun en => en.usage.cacheWrite)).sum⟩,
        (t.entries.map (fun en => en.cost)).sum,
        t.entries.length⟩ := by
  simpa [getTotals] using totals_foldl t.entries ⟨⟨0, 0, 0, 0⟩, 0, 0⟩

theorem recordAll_entries (es : List UsageEvent) :
    ∀ t : CostTracker, (recordAll t es).entries = t.entries ++ es.map entryOf := by
  induction es with
  | nil => intro t; simp [recordAll]
  | cons e es ih =>
    intro t
    simp [recordAll, List.foldl_cons, recordUsage] at ih ⊢
    rw [ih]
    simp

end Cost

/-- Claim C7: the session's stats are cumulative counters: after any
sequence of recorded usage events, the reported totals equal the
componentwise sum of all recorded entries (input, output, cacheRead,
cacheWrite tokens and cost, each field defaulting to 0 when absent from an
event), the request count equals the number of recorded events, and an
empty tracker reports all zeros; reading the totals never mutates them
(here: `getTotals` is a pure function of the tracker). -/
theorem costTracker_totals_are_componentwise_sums (es : List Cost.UsageEvent) :
    Cost.getTotals (Cost.recordAll Cost.mkCostTracker es) =
      ⟨⟨(es.map (fun e => e.input.getD 0)).sum,
        (es.map (fun e => e.output.getD 0)).sum,
        (es.map (fun e => e.cacheRead.getD 0)).sum,
        (es.map (fun e => e.cacheWrite.getD 0)).sum⟩,
        (es.map (fun e => e.costTotal.getD 0)).sum,
        es.length⟩ ∧
    Cost.getTotals Cost.mkCostTracker = ⟨⟨0, 0, 0, 0⟩, 0, 0⟩ := by
  constructor
  · rw [Cost.getTotals_entries, Cost.recordAll_entries]
    simp [Cost.mkCostTracker, List.map_map, Function.comp_def, Cost.entryOf]
  · rfl

/-- Claim C4 is refuted on the code: `_emit` iterates the live
`subscribers` array by index while the unsubscribe handle splices it, so
when subscriber 0's callback unsubscribes itself during a publish to
subscribers 0, 1, 2, the event is delivered to 0 and 2 but subscriber 1 —
subscribed when the publish began and never unsubscribed — is skipped. -/
theorem emit_unsubscribe_during_publish_skips_subscriber :
    MockBus.emit
        [⟨0, .unsub 0⟩, ⟨1, .pure⟩, ⟨2, .pure⟩] =
      ([0, 2], [⟨1, .pure⟩, ⟨2, .pure⟩], none) ∧
    1 ∉ (MockBus.emit [⟨0, .unsub 0⟩, ⟨1, .pure⟩, ⟨2, .pure⟩]).1 := by
  constructor
  · rfl
  · decide

/-- Claim C5 is refuted on the code: `_emit` has no try/catch, so when
subscriber 0's callback throws during a publish to subscribers 0 and 1,
the error propagates out of `_emit` and subscriber 1 never receives the
event. -/
theorem emit_throwing_subscriber_aborts_publish :
    MockBus.emit [⟨0, .throwErr "boom"⟩, ⟨1, .pure⟩] =
      ([0], [⟨0, .throwErr "boom"⟩, ⟨1, .pure⟩], some "boom") ∧
    1 ∉ (MockBus.emit [⟨0, .throwErr "boom"⟩, ⟨1, .pure⟩]).1 := by
  constructor
  · rfl
  · decide

/-- Claim C9: for every input list, `sortModelsNewestFirst` returns a new
list that is a permutation of the input (same elements, hence the same
payloads standing for extra object properties); the embedding is pure, so
the input list and its elements are not mutated. -/
theorem sortModelsNewestFirst_is_permutation {α : Type}
    (l : List (ModelSort.Model α)) :
    (ModelSort.sortModelsNewestFirst l).Perm l :=
  List.mergeSort_perm l _

namespace Auth

theorem canonical_by_input_eval :
    OAUTH_CANONICAL_BY_INPUT =
      [("anthropic", "anthropic"), ("github-copilot", "github-copilot"),
       ("google", "google-gemini-cli"), ("google-gemini-cli", "google-gemini-cli"),
       ("antigravity", "google-antigravity"),
       ("google-antigravity", "google-antigravity"),
       ("openai-codex", "openai-codex")] := by
  decide

theorem find_canonical_eq_none_of_unsupported (s : String)
    (h : s ∉ SUPPORTED_OAUTH_INPUTS) :
    OAUTH_CANONICAL_BY_INPUT.find? (fun kv => kv.1 = s) = none := by
  simp only [SUPPORTED_OAUTH_INPUTS, List.mem_cons, List.not_mem_nil, or_false,
    not_or] at h
  obtain ⟨h1, h2, h3, h4, h5, h6, h7⟩ := h
  have g1 : "anthropic" ≠ s := Ne.symm h1
  have g2 : "github-copilot" ≠ s := Ne.symm h2
  have g3 : "google" ≠ s := Ne.symm h3
  have g4 : "google-gemini-cli" ≠ s := Ne.symm h4
  have g5 : "antigravity" ≠ s := Ne.symm h5
  have g6 : "google-antigravity" ≠ s := Ne.symm h6
  have g7 : "openai-codex" ≠ s := Ne.symm h7
  simp [canonical_by_input_eval, List.find?, g1, g2, g3, g4, g5, g6, g7]

theorem resolve_undef_of_unsupported (s : String)
    (h : s ∉ SUPPORTED_OAUTH_INPUTS) (hp : s ∉ OBJECT_PROTOTYPE_KEYS) :
    resolveOAuthProviderId s = .jsUndefined := by
  rw [resolveOAuthProviderId, find_canonical_eq_none_of_unsupported s h]
  simp [hp]

theorem resolve_protoFn_of_inherited (s : String)
    (h : s ∉ SUPPORTED_OAUTH_INPUTS) (hp : s ∈ OBJECT_PROTOTYPE_KEYS) :
    resolveOAuthProviderId s = .protoFn s := by
  rw [resolveOAuthProviderId, find_canonical_eq_none_of_unsupported s h]
  simp [hp]

end Auth

/-- Counterexample to claim C8 as stated: "constructor" is outside the
supported OAuth provider set, yet `oauthLogin "constructor"` throws no
`ValidationError` — the plain-object lookup finds the inherited, truthy
`Object.prototype.constructor`, so `storage.login` is invoked once with
that non-string value. -/
theorem oauthLogin_constructor_no_validation_error :
    "constructor" ∉ Auth.SUPPORTED_OAUTH_INPUTS ∧
    (Auth.oauthLogin "constructor").threwValidationError = false ∧
    (Auth.oauthLogin "constructor").loginCalls = [.protoFn "constructor"] := by
  refine ⟨by decide, by decide, by decide⟩

/-- Claim C8 (amended): for every provider string outside the supported
OAuth provider set (anthropic, github-copilot, google, google-gemini-cli,
antigravity, google-antigravity, openai-codex) that is not a property
name inherited from `Object.prototype`, `AuthService.oauthLogin` throws a
`ValidationError` and never invokes `storage.login`; for an inherited
property name outside the supported set, the lookup yields the truthy
inherited value and `storage.login` is invoked exactly once with it, with
no `ValidationError`; for every supported alias `storage.login` is
invoked exactly once with the canonical provider id. -/
theorem oauthLogin_provider_mapping_amended :
    (∀ s : String, s ∉ Auth.SUPPORTED_OAUTH_INPUTS →
        s ∉ Auth.OBJECT_PROTOTYPE_KEYS →
        Auth.oauthLogin s = ⟨[], true⟩) ∧
    (∀ s : String, s ∉ Auth.SUPPORTED_OAUTH_INPUTS →
        s ∈ Auth.OBJECT_PROTOTYPE_KEYS →
        Auth.oauthLogin s = ⟨[.protoFn s], false⟩) ∧
    Auth.oauthLogin "anthropic" = ⟨[.strVal "anthropic"], false⟩ ∧
    Auth.oauthLogin "github-copilot" = ⟨[.strVal "github-copilot"], false⟩ ∧
    Auth.oauthLogin "google" = ⟨[.strVal "google-gemini-cli"], false⟩ ∧
    Auth.oauthLogin "google-gemini-cli" =
      ⟨[.strVal "google-gemini-cli"], false⟩ ∧
    Auth.oauthLogin "antigravity" = ⟨[.strVal "google-antigravity"], false⟩ ∧
    Auth.oauthLogin "google-antigravity" =
      ⟨[.strVal "google-antigravity"], false⟩ ∧
    Auth.oauthLogin "openai-codex" = ⟨[.strVal "openai-codex"], false⟩ := by
  refine ⟨fun s h hp => ?_, fun s h hp => ?_, by decide, by decide, by decide,
    by decide, by decide, by decide, by decide⟩
  · simp only [Auth.oauthLogin]
    rw [Auth.resolve_undef_of_unsupported s h hp]
    rfl
  · simp only [Auth.oauthLogin]
    rw [Auth.resolve_protoFn_of_inherited s h hp]
    rfl

/-- Witness for the amended C8 at "openai" (unsupported, not an inherited
name) and "constructor" (unsupported, inherited from Object.prototype). -/
theorem oauthLogin_provider_mapping_amended_witness :
    ("openai" ∉ Auth.SUPPORTED_OAUTH_INPUTS ∧
     "openai" ∉ Auth.OBJECT_PROTOTYPE_KEYS ∧
     Auth.oauthLogin "openai" = ⟨[], true⟩) ∧
    ("constructor" ∉ Auth.SUPPORTED_OAUTH_INPUTS ∧
     "constructor" ∈ Auth.OBJECT_PROTOTYPE_KEYS ∧
     Auth.oauthLogin "constructor" = ⟨[.protoFn "constructor"], false⟩) :=
  ⟨⟨by decide, by decide,
      oauthLogin_provider_mapping_amended.1 "openai" (by decide) (by decide)⟩,
   ⟨by decide, by decide,
      oauthLogin_provider_mapping_amended.2.1 "constructor"
        (by decide) (by decide)⟩⟩

namespace Supervisor

theorem filterMap_succ_eq_map (l : List Nat) :
    l.filterMap (fun x => some (x + 1)) = l.map (fun i => i + 1) :=
  congrFun (List.filterMap_eq_map fun x => x + 1) l

theorem run_append (s : SupState) (l1 l2 : List SupCmd) :
    run s (l1 ++ l2) = run (run s l1) l2 := by
  simp [run, List.foldl_append]

theorem crashSeq_succ (n : Nat) (err : String) :
    crashSeq (n + 1) err =
      crashSeq n err ++ [SupCmd.crash err, SupCmd.workerReady] := by
  simp [crashSeq, List.replicate_succ']

/-- After `k ≤ maxAttempts` crashes each followed by a successful worker
re-creation, the session is running again with `restartCount = k` and has
published exactly the `restarted` events with ordinals `1, …, k`. -/
theorem run_crashSeq_of_le (maxA : Nat) (err : String) :
    ∀ k, k ≤ maxA →
      run (initSession maxA false) (crashSeq k err) =
        { phase := .running, restartCount := k, isResumedSession := false,
          chatHistoryRequested := false,
          events := SupEvent.startedEv ::
            (List.range k).map (fun i => .restartedEv (i + 1) err),
          maxAttempts := maxA } := by
  intro k
  induction k with
  | zero =>
    intro _
    simp [crashSeq, run, initSession]
  | succ k ih =>
    intro hk
    rw [crashSeq_succ, run_append, ih (Nat.le_of_succ_le hk)]
    have hretry : restartRetry maxA (k + 1) = true := by
      simp [restartRetry]; omega
    simp [run, step, hretry, publish, List.range_succ]

/-- The `failed` phase is absorbing and publishes no further `restarted`
or `failed` events. -/
theorem failed_absorbing :
    ∀ (cmds : List SupCmd) (s : SupState), s.phase = .failed →
      (run s cmds).phase = .failed ∧
      restartedAttempts (run s cmds).events = restartedAttempts s.events ∧
      ∀ e a, ((run s cmds).events.count (SupEvent.failedEv e a) =
        s.events.count (SupEvent.failedEv e a)) := by
  intro cmds
  induction cmds with
  | nil => intro s h; exact ⟨h, rfl, fun _ _ => rfl⟩
  | cons c cmds ih =>
    intro s h
    have hstep : (step s c).1.phase = .failed ∧
        ((step s c).1.events = s.events ∨
          (step s c).1.events = s.events ++ [SupEvent.historyReplayEv]) := by
      cases c with
      | crash err => simp [step, h]
      | workerReady =>
        rw [step]
        cases hp : s.phase <;> simp_all
      | stopCmd => simp [step, h]
      | promptCmd t =>
        rw [step]
        cases hp : s.phase <;> simp_all
      | resumeBookkeeping =>
        rw [step]
        split
        · exact ⟨h, Or.inr rfl⟩
        · exact ⟨h, Or.inl rfl⟩
    obtain ⟨h1, h2⟩ := hstep
    have hrun : run s (c :: cmds) = run (step s c).1 cmds := rfl
    rw [hrun]
    obtain ⟨p1, p2, p3⟩ := ih (step s c).1 h1
    refine ⟨p1, ?_, ?_⟩
    · rw [p2]
      rcases h2 with h2 | h2
      · rw [h2]
      · rw [h2]; simp [restartedAttempts]
    · intro e a
      rw [p3 e a]
      rcases h2 with h2 | h2
      · rw [h2]
      · rw [h2]; simp [List.count_append]

/-- State reached after `maxAttempts + 1` induced crashes: restart
attempts are exhausted, the terminal `failed` event has been published,
and the session is in the `failed` phase. -/
theorem run_crashSeq_exhausted (maxA : Nat) (err : String) :
    run (initSession maxA false) (crashSeq (maxA + 1) err) =
      { phase := .failed, restartCount := maxA + 1, isResumedSession := false,
        chatHistoryRequested := false,
        events := SupEvent.startedEv ::
          ((List.range maxA).map (fun i => .restartedEv (i + 1) err) ++
            [.failedEv err maxA]),
        maxAttempts := maxA } := by
  rw [crashSeq_succ, run_append, run_crashSeq_of_le maxA err maxA le_rfl]
  have hgiveup : restartRetry maxA (maxA + 1) = false := by
    simp [restartRetry]
  simp [run, step, hgiveup, publish]

end Supervisor

/-- Claim C1: for every sequence of more than `maxAttempts` induced worker
crashes (each retried crash followed by a worker re-creation), the session
reaches the terminal `Failed` state after exactly `maxAttempts` restart
attempts, a terminal `failed` event carrying the triggering error is
published exactly once, and no further restart is ever attempted after
entering `Failed` (under any further command sequence). -/
theorem supervisor_gives_up_after_maxAttempts (maxA N : Nat) (err : String)
    (h : maxA < N) :
    (Supervisor.run (Supervisor.initSession maxA false)
        (Supervisor.crashSeq N err)).phase = .failed ∧
    Supervisor.restartedAttempts
        (Supervisor.run (Supervisor.initSession maxA false)
          (Supervisor.crashSeq N err)).events =
      (List.range maxA).map (fun i => i + 1) ∧
    (Supervisor.run (Supervisor.initSession maxA false)
        (Supervisor.crashSeq N err)).events.count
      (Supervisor.SupEvent.failedEv err maxA) = 1 ∧
    ∀ extra : List Supervisor.SupCmd,
      (Supervisor.run
          (Supervisor.run (Supervisor.initSession maxA false)
            (Supervisor.crashSeq N err)) extra).phase = .failed ∧
      Supervisor.restartedAttempts
          (Supervisor.run
            (Supervisor.run (Supervisor.initSession maxA false)
              (Supervisor.crashSeq N err)) extra).events =
        (List.range maxA).map (fun i => i + 1) := by
  obtain ⟨m, rfl⟩ : ∃ m, N = (maxA + 1) + m :=
    ⟨N - (maxA + 1), by omega⟩
  have hsplit : Supervisor.crashSeq (maxA + 1 + m) err =
      Supervisor.crashSeq (maxA + 1) err ++ Supervisor.crashSeq m err := by
    simp [Supervisor.crashSeq, List.replicate_add]
  rw [hsplit, Supervisor.run_append, Supervisor.run_crashSeq_exhausted]
  set F : Supervisor.SupState :=
    { phase := .failed, restartCount := maxA + 1, isResumedSession := false,
      chatHistoryRequested := false,
      events := Supervisor.SupEvent.startedEv ::
        ((List.range maxA).map (fun i => .restartedEv (i + 1) err) ++
          [.failedEv err maxA]),
      maxAttempts := maxA } with hF
  have hFfailed : F.phase = .failed := rfl
  have hFrest : Supervisor.restartedAttempts F.events =
      (List.range maxA).map (fun i => i + 1) := by
    simp [hF, Supervisor.restartedAttempts, List.filterMap_append,
      List.filterMap_map, Function.comp_def, Supervisor.filterMap_succ_eq_map]
  have hFcount : F.events.count (Supervisor.SupEvent.failedEv err maxA) = 1 := by
    have hnot : Supervisor.SupEvent.failedEv err maxA ∉
        (List.range maxA).map
          (fun i => Supervisor.SupEvent.restartedEv (i + 1) err) := by
      simp [List.mem_map]
    simp [hF, List.count_append, List.count_cons,
      List.count_eq_zero.mpr hnot]
  obtain ⟨q1, q2, _⟩ := Supervisor.failed_absorbing
    (Supervisor.crashSeq m err) F hFfailed
  refine ⟨q1, by rw [q2, hFrest], ?_, ?_⟩
  · rw [(Supervisor.failed_absorbing (Supervisor.crashSeq m err) F
      hFfailed).2.2 err maxA, hFcount]
  · intro extra
    obtain ⟨r1, r2, _⟩ := Supervisor.failed_absorbing extra
      (Supervisor.run F (Supervisor.crashSeq m err)) q1
    exact ⟨r1, by rw [r2, q2, hFrest]⟩

/-- Witness for C1 with `maxAttempts = 2` and `N = 4` crashes (error
"boom"), probing the post-failure behaviour with one extra crash. -/
theorem supervisor_gives_up_after_maxAttempts_witness :
    2 < 4 ∧
    ((Supervisor.run (Supervisor.initSession 2 false)
        (Supervisor.crashSeq 4 "boom")).phase = .failed ∧
     Supervisor.restartedAttempts
        (Supervisor.run (Supervisor.initSession 2 false)
          (Supervisor.crashSeq 4 "boom")).events =
      (List.range 2).map (fun i => i + 1) ∧
     (Supervisor.run (Supervisor.initSession 2 false)
        (Supervisor.crashSeq 4 "boom")).events.count
      (Supervisor.SupEvent.failedEv "boom" 2) = 1) ∧
    ((Supervisor.run
        (Supervisor.run (Supervisor.initSession 2 false)
          (Supervisor.crashSeq 4 "boom")) [.crash "x"]).phase = .failed ∧
     Supervisor.restartedAttempts
        (Supervisor.run
          (Supervisor.run (Supervisor.initSession 2 false)
            (Supervisor.crashSeq 4 "boom")) [.crash "x"]).events =
      (List.range 2).map (fun i => i + 1)) := by
  have h := supervisor_gives_up_after_maxAttempts 2 4 "boom" (by decide)
  exact ⟨by decide, ⟨h.1, h.2.1, h.2.2.1⟩, h.2.2.2 [.crash "x"]⟩

/-- Claim C2: for every sequence of `N ≤ maxAttempts` induced worker
crashes, each followed by a successful worker re-creation, the session
ends in the `Running` state after the `N`-th re-creation with
`restartCount = N`, and exactly `N` `restarted` events have been
published, with strictly increasing attempt ordinals `1, …, N`. -/
theorem supervisor_recovers_within_maxAttempts (maxA N : Nat) (err : String)
    (h : N ≤ maxA) :
    (Supervisor.run (Supervisor.initSession maxA false)
        (Supervisor.crashSeq N err)).phase = .running ∧
    (Supervisor.run (Supervisor.initSession maxA false)
        (Supervisor.crashSeq N err)).restartCount = N ∧
    Supervisor.restartedAttempts
        (Supervisor.run (Supervisor.initSession maxA false)
          (Supervisor.crashSeq N err)).events =
      (List.range N).map (fun i => i + 1) ∧
    (Supervisor.restartedAttempts
        (Supervisor.run (Supervisor.initSession maxA false)
          (Supervisor.crashSeq N err)).events).length = N ∧
    (Supervisor.restartedAttempts
        (Supervisor.run (Supervisor.initSession maxA false)
          (Supervisor.crashSeq N err)).events).Pairwise (· < ·) := by
  rw [Supervisor.run_crashSeq_of_le maxA err N h]
  have hatt : Supervisor.restartedAttempts
      (Supervisor.SupEvent.startedEv ::
        (List.range N).map (fun i => .restartedEv (i + 1) err)) =
      (List.range N).map (fun i => i + 1) := by
    simp [Supervisor.restartedAttempts, List.filterMap_map, Function.comp_def,
      Supervisor.filterMap_succ_eq_map]
  refine ⟨rfl, rfl, hatt, by rw [hatt]; simp, ?_⟩
  rw [hatt]
  exact (List.pairwise_lt_range N).map _ (fun a b hab => by omega)

/-- Witness for C2 at the spec's scenario: `maxAttempts = 3`, two crashes,
then a successful worker. -/
theorem supervisor_recovers_within_maxAttempts_witness :
    2 ≤ 3 ∧
    ((Supervisor.run (Supervisor.initSession 3 false)
        (Supervisor.crashSeq 2 "crash")).phase = .running ∧
     (Supervisor.run (Supervisor.initSession 3 false)
        (Supervisor.crashSeq 2 "crash")).restartCount = 2 ∧
     Supervisor.restartedAttempts
        (Supervisor.run (Supervisor.initSession 3 false)
          (Supervisor.crashSeq 2 "crash")).events =
      (List.range 2).map (fun i => i + 1) ∧
     (Supervisor.restartedAttempts
        (Supervisor.run (Supervisor.initSession 3 false)
          (Supervisor.crashSeq 2 "crash")).events).length = 2 ∧
     (Supervisor.restartedAttempts
        (Supervisor.run (Supervisor.initSession 3 false)
          (Supervisor.crashSeq 2 "crash")).events).Pairwise (· < ·)) := by
  exact ⟨by decide, supervisor_recovers_within_maxAttempts 3 2 "crash" (by decide)⟩

namespace Supervisor

theorem step_replayPotential_le (s : SupState) (c : SupCmd) :
    replayPotential (step s c).1 ≤ replayPotential s := by
  cases c with
  | crash err =>
    rw [step]
    cases hp : s.phase <;>
      simp only [replayPotential, publish, replayCount, List.countP_append] <;>
      first
        | omega
        | (split <;> simp)
  | workerReady =>
    rw [step]
    cases hp : s.phase <;> simp [replayPotential]
  | stopCmd =>
    rw [step]
    cases hp : s.phase <;>
      simp only [replayPotential, publish, replayCount, List.countP_append] <;>
      first
        | omega
        | simp
  | promptCmd t =>
    rw [step]
    cases hp : s.phase <;> simp [replayPotential]
  | resumeBookkeeping =>
    rw [step]
    split
    · next hg =>
      simp [replayPotential, publish, replayCount, List.countP_append,
        hg.1, hg.2]
    · simp [replayPotential]

theorem run_replayPotential_le :
    ∀ (cmds : List SupCmd) (s : SupState),
      replayPotential (run s cmds) ≤ replayPotential s := by
  intro cmds
  induction cmds with
  | nil => intro s; exact le_refl _
  | cons c cmds ih =>
    intro s
    exact le_trans (ih (step s c).1) (step_replayPotential_le s c)

theorem step_fresh (s : SupState) (c : SupCmd)
    (h : s.isResumedSession = false) :
    (step s c).1.isResumedSession = false ∧
    replayCount (step s c).1.events = replayCount s.events := by
  cases c with
  | crash err =>
    rw [step]
    cases hp : s.phase <;>
      simp only [replayPotential, publish, replayCount, List.countP_append] <;>
      first
        | exact ⟨h, rfl⟩
        | (split <;> simp [h, List.countP_append])
        | simp [h, List.countP_append]
  | workerReady =>
    rw [step]
    cases hp : s.phase <;> exact ⟨h, rfl⟩
  | stopCmd =>
    rw [step]
    cases hp : s.phase <;>
      first
        | exact ⟨h, rfl⟩
        | simp [publish, replayCount, List.countP_append]
  | promptCmd t =>
    rw [step]
    cases hp : s.phase <;> exact ⟨h, rfl⟩
  | resumeBookkeeping =>
    rw [step]
    split
    · next hg => rw [h] at hg; exact absurd hg.1 (by simp)
    · exact ⟨h, rfl⟩

theorem run_fresh :
    ∀ (cmds : List SupCmd) (s : SupState), s.isResumedSession = false →
      replayCount (run s cmds).events = replayCount s.events ∧
      (run s cmds).isResumedSession = false := by
  intro cmds
  induction cmds with
  | nil => intro s h; exact ⟨rfl, h⟩
  | cons c cmds ih =>
    intro s h
    obtain ⟨h1, h2⟩ := step_fresh s c h
    obtain ⟨p1, p2⟩ := ih (step s c).1 h1
    exact ⟨p1.trans h2, p2⟩

end Supervisor

/-- Claim C3: over every execution of a session, the `historyReplay`
event is emitted at most once during the session's lifetime, and only
when the session was created by `resume`: a fresh session never emits it
(no command sequence can produce one), and a resumed session emits at
most one even if the resume bookkeeping path runs any number of times,
because emission is gated by the one-shot `chatHistoryRequested` flag. -/
theorem historyReplay_at_most_once (maxA : Nat)
    (cmds : List Supervisor.SupCmd) :
    Supervisor.replayCount
        (Supervisor.run (Supervisor.initSession maxA false) cmds).events = 0 ∧
    Supervisor.replayCount
        (Supervisor.run (Supervisor.initSession maxA true) cmds).events ≤ 1 := by
  constructor
  · exact (Supervisor.run_fresh cmds (Supervisor.initSession maxA false) rfl).1
  · have h := Supervisor.run_replayPotential_le cmds
      (Supervisor.initSession maxA true)
    have hinit : Supervisor.replayPotential
        (Supervisor.initSession maxA true) = 1 := rfl
    calc Supervisor.replayCount
          (Supervisor.run (Supervisor.initSession maxA true) cmds).events
        ≤ Supervisor.replayPotential
            (Supervisor.run (Supervisor.initSession maxA true) cmds) :=
          Nat.le_add_right _ _
      _ ≤ 1 := hinit ▸ h

/-- Claim C6: calling `stop()` twice in succession produces exactly one
`stopped` event, and the second call returns without error and leaves the
state untouched; `Stopped` is terminal and the Supervisor rejects new
prompts there with a `SessionEndedError`. -/
theorem stop_twice_one_stopped_event (s : Supervisor.SupState)
    (h : s.phase = .running) :
    (Supervisor.step s .stopCmd).2 = .ok ∧
    (Supervisor.step s .stopCmd).1.phase = .stopped ∧
    (Supervisor.step s .stopCmd).1.events =
      s.events ++ [Supervisor.SupEvent.stoppedEv] ∧
    Supervisor.step (Supervisor.step s .stopCmd).1 .stopCmd =
      ((Supervisor.step s .stopCmd).1, .ok) ∧
    (Supervisor.step (Supervisor.step s .stopCmd).1 .stopCmd).1.events.count
        Supervisor.SupEvent.stoppedEv =
      s.events.count Supervisor.SupEvent.stoppedEv + 1 ∧
    (∀ t, Supervisor.step (Supervisor.step s .stopCmd).1 (.promptCmd t) =
      ((Supervisor.step s .stopCmd).1, .sessionEndedError)) := by
  have h1 : Supervisor.step s .stopCmd =
      ({ phase := .stopped, restartCount := 0, isResumedSession := false,
         chatHistoryRequested := false,
         events := s.events ++ [Supervisor.SupEvent.stoppedEv],
         maxAttempts := s.maxAttempts }, .ok) := by
    rw [Supervisor.step]
    rw [h]
    rfl
  rw [h1]
  refine ⟨rfl, rfl, rfl, rfl, ?_, fun t => rfl⟩
  simp [Supervisor.step, List.count_append]

/-- Witness for C6 at a freshly started session with `maxAttempts = 3`. -/
theorem stop_twice_one_stopped_event_witness :
    (Supervisor.initSession 3 false).phase = .running ∧
    ((Supervisor.step (Supervisor.initSession 3 false) .stopCmd).2 = .ok ∧
     (Supervisor.step (Supervisor.initSession 3 false) .stopCmd).1.phase =
       .stopped ∧
     (Supervisor.step (Supervisor.initSession 3 false) .stopCmd).1.events =
       (Supervisor.initSession 3 false).events ++
         [Supervisor.SupEvent.stoppedEv] ∧
     Supervisor.step
         (Supervisor.step (Supervisor.initSession 3 false) .stopCmd).1
         .stopCmd =
       ((Supervisor.step (Supervisor.initSession 3 false) .stopCmd).1, .ok) ∧
     (Supervisor.step
         (Supervisor.step (Supervisor.initSession 3 false) .stopCmd).1
         .stopCmd).1.events.count Supervisor.SupEvent.stoppedEv =
       (Supervisor.initSession 3 false).events.count
         Supervisor.SupEvent.stoppedEv + 1 ∧
     (∀ t, Supervisor.step
         (Supervisor.step (Supervisor.initSession 3 false) .stopCmd).1
         (.promptCmd t) =
       ((Supervisor.step (Supervisor.initSession 3 false) .stopCmd).1,
         .sessionEndedError))) :=
  ⟨rfl, stop_twice_one_stopped_event (Supervisor.initSession 3 false) rfl⟩

namespace ModelSort

theorem lcmp_gt_iff {α : Type} [LinearOrder α] (x y : α) :
    lcmp x y = .gt ↔ y < x := by
  unfold lcmp
  rcases lt_trichotomy x y with h | h | h
  · simp [h, asymm h]
  · simp [h, lt_irrefl]
  · simp [h, asymm h]

theorem lcmp_lt_iff {α : Type} [LinearOrder α] (x y : α) :
    lcmp x y = .lt ↔ x < y := by
  unfold lcmp
  rcases lt_trichotomy x y with h | h | h
  · simp [h]
  · simp [h, lt_irrefl]
  · simp [h, asymm h]

theorem lcmp_eq_iff {α : Type} [LinearOrder α] (x y : α) :
    lcmp x y = .eq ↔ x = y := by
  unfold lcmp
  rcases lt_trichotomy x y with h | h | h
  · simp [h, ne_of_lt h]
  · simp [h, lt_irrefl]
  · simp [h, asymm h, (ne_of_lt h).symm]

theorem lcmp_ne_gt_iff {α : Type} [LinearOrder α] (x y : α) :
    lcmp x y ≠ .gt ↔ x ≤ y := by
  rw [ne_eq, lcmp_gt_iff, not_lt]

theorem then_ne_gt_iff (o p : Ordering) :
    o.then p ≠ .gt ↔ o = .lt ∨ (o = .eq ∧ p ≠ .gt) := by
  cases o <;> simp [Ordering.then]

theorem modelLE_iff {α : Type} (a b : Model α) :
    modelLE a b = true ↔ rank a ≤ rank b := by
  have hm : modelLE a b = true ↔ modelCmp a b ≠ .gt := by
    unfold modelLE
    cases h : modelCmp a b <;> simp
  rw [hm]
  unfold modelCmp keyCmpDesc rank keyLex
  simp only [then_ne_gt_iff, lcmp_lt_iff, lcmp_eq_iff, lcmp_ne_gt_iff,
    Prod.Lex.le_iff, OrderDual.toDual_le_toDual, not_lt]

theorem modelLE_trans {α : Type} (a b c : Model α) :
    modelLE a b → modelLE b c → modelLE a c := by
  intro hab hbc
  exact (modelLE_iff a c).mpr
    (le_trans ((modelLE_iff a b).mp hab) ((modelLE_iff b c).mp hbc))

theorem modelLE_total {α : Type} (a b : Model α) :
    modelLE a b || modelLE b a := by
  rcases le_total (rank a) (rank b) with h | h
  · simp [(modelLE_iff a b).mpr h]
  · simp [(modelLE_iff b a).mpr h]

theorem specLE_iff_rank {α : Type} (a b : Model α) :
    specLE a b ↔ rank a ≤ rank b := by
  unfold specLE rank
  simp only [Prod.Lex.le_iff, OrderDual.toDual_le_toDual]

theorem rank_eq_of_tie {α : Type} {a b : Model α} (h : specTie a b) :
    rank a = rank b := by
  unfold rank keyLex
  rw [h.1, h.2]

end ModelSort

/-- Claim C10: for every input list, `sortModelsNewestFirst` orders
models first by provider ascending (string comparison), then within a
provider by descending version key — the first three numbers of the id
(after separating the trailing date, missing components defaulting to 0)
plus a date component that is the id's last number when it exceeds
20200000 and infinity (`⊤`) otherwise. Consequently an undated alias
sorts strictly before every dated model with the same version numbers,
and models with equal provider and equal key keep their input order. -/
theorem sortModels_by_provider_then_version_desc {α : Type}
    (l : List (ModelSort.Model α)) :
    (ModelSort.sortModelsNewestFirst l).Pairwise ModelSort.specLE ∧
    (∀ (a b : ModelSort.Model α) (d : Nat),
      a.provider = b.provider →
      (ModelSort.modelSortKey a.id).1 = (ModelSort.modelSortKey b.id).1 →
      (ModelSort.modelSortKey a.id).2.1 = (ModelSort.modelSortKey b.id).2.1 →
      (ModelSort.modelSortKey a.id).2.2.1 =
        (ModelSort.modelSortKey b.id).2.2.1 →
      (ModelSort.modelSortKey a.id).2.2.2 = none →
      (ModelSort.modelSortKey b.id).2.2.2 = some d →
      ModelSort.specLE a b ∧ ¬ ModelSort.specLE b a) ∧
    (∀ a b : ModelSort.Model α, ModelSort.specTie a b →
      [a, b].Sublist l →
      [a, b].Sublist (ModelSort.sortModelsNewestFirst l)) := by
  refine ⟨?_, ?_, ?_⟩
  · have hs := @List.sorted_mergeSort (ModelSort.Model α) ModelSort.modelLE
      (fun a b c => ModelSort.modelLE_trans a b c)
      (fun a b => ModelSort.modelLE_total a b) l
    exact hs.imp (fun hab => (ModelSort.specLE_iff_rank _ _).mpr
      ((ModelSort.modelLE_iff _ _).mp hab))
  · intro a b d hp h1 h2 h3 ha hb
    constructor
    · refine Or.inr ⟨hp, ?_⟩
      unfold ModelSort.keyLex
      rw [Prod.Lex.le_iff]
      refine Or.inr ⟨h1.symm, ?_⟩
      rw [Prod.Lex.le_iff]
      refine Or.inr ⟨h2.symm, ?_⟩
      rw [Prod.Lex.le_iff]
      refine Or.inr ⟨h3.symm, ?_⟩
      rw [ha, hb]
      exact le_top
    · intro hcontra
      rcases hcontra with hlt | ⟨-, hkey⟩
      · rw [hp] at hlt; exact lt_irrefl _ hlt
      · unfold ModelSort.keyLex at hkey
        rw [Prod.Lex.le_iff] at hkey
        rcases hkey with hlt | ⟨-, hkey⟩
        · rw [h1] at hlt; exact lt_irrefl _ hlt
        · rw [Prod.Lex.le_iff] at hkey
          rcases hkey with hlt | ⟨-, hkey⟩
          · rw [h2] at hlt; exact lt_irrefl _ hlt
          · rw [Prod.Lex.le_iff] at hkey
            rcases hkey with hlt | ⟨-, hkey⟩
            · rw [h3] at hlt; exact lt_irrefl _ hlt
            · rw [ha, hb] at hkey
              exact absurd (top_le_iff.mp hkey) (by simp [ModelSort.toTop])
  · intro a b htie hsub
    have hab : ModelSort.modelLE a b = true :=
      (ModelSort.modelLE_iff a b).mpr (le_of_eq (ModelSort.rank_eq_of_tie htie))
    exact List.pair_sublist_mergeSort
      (fun x y z => ModelSort.modelLE_trans x y z)
      (fun x y => ModelSort.modelLE_total x y) hab hsub

/-- Witness for C10: the undated alias `claude-sonnet-4-5` sorts strictly
before the dated `claude-sonnet-4-5-20250929`, and two models tied on
provider and key (`claude-haiku-4-5`, `claude-opus-4-5`) keep their input
order through the sort. -/
theorem sortModels_by_provider_then_version_desc_witness :
    ModelSort.specLE
        (⟨"claude-sonnet-4-5", "anthropic", (0 : Nat)⟩ : ModelSort.Model Nat)
        ⟨"claude-sonnet-4-5-20250929", "anthropic", 1⟩ ∧
    ¬ ModelSort.specLE
        (⟨"claude-sonnet-4-5-20250929", "anthropic", (1 : Nat)⟩ :
          ModelSort.Model Nat)
        ⟨"claude-sonnet-4-5", "anthropic", 0⟩ ∧
    [(⟨"claude-haiku-4-5", "anthropic", (0 : Nat)⟩ : ModelSort.Model Nat),
        ⟨"claude-opus-4-5", "anthropic", 1⟩].Sublist
      (ModelSort.sortModelsNewestFirst
        [⟨"claude-haiku-4-5", "anthropic", 0⟩,
          ⟨"claude-opus-4-5", "anthropic", 1⟩]) := by
  have h2 := (sortModels_by_provider_then_version_desc
      ([] : List (ModelSort.Model Nat))).2.1
    ⟨"claude-sonnet-4-5", "anthropic", 0⟩
    ⟨"claude-sonnet-4-5-20250929", "anthropic", 1⟩
    20250929 rfl (by decide) (by decide) (by decide) (by decide) (by decide)
  have h3 := (sortModels_by_provider_then_version_desc
      [(⟨"claude-haiku-4-5", "anthropic", (0 : Nat)⟩ : ModelSort.Model Nat),
        ⟨"claude-opus-4-5", "anthropic", 1⟩]).2.2
    ⟨"claude-haiku-4-5", "anthropic", 0⟩ ⟨"claude-opus-4-5", "anthropic", 1⟩
    ⟨rfl, by decide⟩ (List.Sublist.refl _)
  exact ⟨h2.1, h2.2, h3⟩
